import Mathlib

/-!
Verification of the PDF content-extraction pipeline
(`src/pdf_extraction/pdf_extractor.py`).

The pure page-selection, classification and formatting logic is translated
directly from the Python source.  Calls into external libraries
(`urllib`, `tempfile`, `os`, `PyPDF2`, `fitz`, `PIL`, `pytesseract`) are
modelled by an explicit environment record `Env`; filesystem side effects
are recorded as an explicit event trace, and OCR invocations are recorded
together with the language string they were configured with.
-/

deriving instance DecidableEq for Except

namespace PdfExtraction

/-! ### Models of the Python string primitives used by the source -/

/-- Model of Python `str.strip()`: drop leading and trailing whitespace
(restricted to the ASCII whitespace characters Lean's `Char.isWhitespace`
recognises). -/
def pyStrip (s : String) : String :=
  String.mk (((s.toList.dropWhile Char.isWhitespace).reverse.dropWhile
    Char.isWhitespace).reverse)

/-- Model of Python `str.split(sep)` for a one-character separator, on the
character list: `"a,,b"` splits into `["a", "", "b"]` and `""` into `[""]`. -/
def splitCharList (sep : Char) : List Char → List (List Char)
  | [] => [[]]
  | c :: rest =>
    let r := splitCharList sep rest
    if c = sep then [] :: r
    else
      match r with
      | g :: gs => (c :: g) :: gs
      | [] => [[c]]

/-- Model of Python `pages_str.split(',')`. -/
def pySplitComma (s : String) : List String :=
  (splitCharList ',' s.toList).map String.mk

/-- Value of a nonempty all-digit character list, `none` otherwise. -/
def digitsVal (cs : List Char) : Option Nat :=
  if cs.isEmpty then none
  else
    cs.foldl
      (fun acc c =>
        match acc with
        | none => none
        | some n => if c.isDigit then some (n * 10 + (c.toNat - '0'.toNat)) else none)
      (some 0)

/-- Model of Python `int(token)` on an already-stripped token, restricted to
an optional ASCII sign followed by ASCII digits; `none` models the
`ValueError` that `int` raises on anything else. -/
def pyInt (s : String) : Option Int :=
  match s.toList with
  | '-' :: rest => (digitsVal rest).map (fun n => -(n : Int))
  | '+' :: rest => (digitsVal rest).map (fun n => (n : Int))
  | cs => (digitsVal cs).map (fun n => (n : Int))

/-! ### `PDFExtractor.parse_pages` (translated from the source) -/

/-- One iteration of the token loop in `parse_pages`: skip a
whitespace-only token; `int()` failure raises `ValueError`, which the
`except ValueError: continue` swallows; negative `n` maps to
`total_pages + n`, positive `n` to `n - 1`, and `n = 0` raises a
`ValueError` that the same handler swallows; an in-range resulting index is
appended to the accumulator. -/
def parse_token (pages : List Nat) (part : String) (total_pages : Nat) : List Nat :=
  if (pyStrip part).isEmpty then pages
  else
    match pyInt (pyStrip part) with
    | none => pages
    | some n =>
      if n < 0 then
        let page_num : Int := (total_pages : Int) + n
        if 0 ≤ page_num ∧ page_num < (total_pages : Int) then
          pages ++ [page_num.toNat]
        else pages
      else if n > 0 then
        let page_num : Int := n - 1
        if 0 ≤ page_num ∧ page_num < (total_pages : Int) then
          pages ++ [page_num.toNat]
        else pages
      else pages

/-- `PDFExtractor.parse_pages`: `None` or the empty string selects every
page; otherwise the comma-separated tokens are processed by `parse_token`
and the final `sorted(set(pages))` is modelled by sorting the deduplicated
accumulator. -/
def parse_pages (pages_str : Option String) (total_pages : Nat) : List Nat :=
  match pages_str with
  | none => List.range total_pages
  | some s =>
    if s.isEmpty then List.range total_pages
    else
      let pages :=
        (pySplitComma s).foldl (fun pages part => parse_token pages part total_pages) []
      List.insertionSort (· ≤ ·) pages.dedup

/-! ### The spec's PageSelector contract -/

/-- Modelled from the spec: the index contributed by one token of the page
spec — trim whitespace and skip an empty token, skip a token that does not
parse as a signed integer, skip the value `0`, map positive `n` to `n - 1`
and negative `n` to `totalPages + n`, and silently drop a resulting index
outside `[0, totalPages)`. -/
def spec_token_index (tok : String) (totalPages : Nat) : Option Nat :=
  let t := pyStrip tok
  if t.isEmpty then none
  else
    match pyInt t with
    | none => none
    | some n =>
      if n = 0 then none
      else
        let i : Int := if 0 < n then n - 1 else (totalPages : Int) + n
        if 0 ≤ i ∧ i < (totalPages : Int) then some i.toNat else none

/-- Modelled from the spec's PageSelector contract: absent or empty page
spec selects `0 .. totalPages - 1`; otherwise split on commas, keep the
index each surviving token contributes, deduplicate and sort ascending. -/
def parse_pages_spec (pageSpec : Option String) (totalPages : Nat) : List Nat :=
  match pageSpec with
  | none => List.range totalPages
  | some s =>
    if s.isEmpty then List.range totalPages
    else
      List.insertionSort (· ≤ ·)
        ((pySplitComma s).filterMap (fun tok => spec_token_index tok totalPages)).dedup

example : parse_pages (some "1,-1") 5 = [0, 4] := by decide
example : parse_pages (some "0") 5 = [] := by decide
example : parse_pages (some "10") 5 = [] := by decide
example : parse_pages none 3 = [0, 1, 2] := by decide

/-! ### `os.path.splitext` and `PDFExtractor.is_image_file` -/

/-- Model of `os.path.splitext(path)[1]` (POSIX rules): the extension is
the part of the basename from its last dot onward, except that the leading
dots of the basename never start an extension (so `".bashrc"` has no
extension). -/
def splitext_ext (path : String) : String :=
  let base := ((path.toList.reverse.takeWhile (fun c => c ≠ '/'))).reverse
  let stemmed := base.dropWhile (fun c => c = '.')
  let revTail := stemmed.reverse.takeWhile (fun c => c ≠ '.')
  if revTail.length = stemmed.length then ""
  else String.mk ('.' :: revTail.reverse)

/-- Model of `str.lower()` restricted to ASCII. -/
def pyLower (s : String) : String :=
  String.mk (s.toList.map Char.toLower)

/-- `PDFExtractor.is_image_file`: the extension, lower-cased, is in the
fixed allow-list. -/
def is_image_file (path : String) : Bool :=
  let image_extensions := [".jpg", ".jpeg", ".png", ".gif", ".bmp", ".tiff", ".webp"]
  image_extensions.contains (pyLower (splitext_ext path))

example : is_image_file "dir/photo.JPG" = true := by decide
example : is_image_file "doc.pdf" = false := by decide
example : is_image_file ".webp" = false := by decide

/-! ### `PDFExtractor.is_scanned_pdf` -/

/-- `PDFExtractor.is_scanned_pdf`, with the document abstracted to the
list of per-page strings `page.extract_text()` returns: the loop returns
`False` at the first page whose stripped text is nonempty, and `True` once
every page was inspected. -/
def is_scanned_pdf : List String → Bool
  | [] => true
  | t :: rest => if (pyStrip t).isEmpty = false then false else is_scanned_pdf rest

/-! ### The environment: external libraries and the filesystem -/

/-- One recorded call of `pytesseract.image_to_string(img, lang=...)`. -/
structure OcrCall where
  img : Nat
  lang : String
deriving DecidableEq

/-- A filesystem side effect of the pipeline: creation of a file (the
`tempfile.NamedTemporaryFile` allocation inside `download_file`) or a
successful `os.unlink`. -/
inductive FsEvent where
  | create (path : String)
  | unlink (path : String)
deriving DecidableEq

/-- Outcomes of the external-library calls one invocation of
`extract_content` can make.  Images are abstracted to `Nat` handles. -/
structure Env where
  /-- Result of the `urlparse`-based test in `is_url`: the source string
  parses with both a scheme and a network location. -/
  is_url : Bool
  /-- The unique path `tempfile.NamedTemporaryFile` allocates for this
  invocation. -/
  temp_path : String
  /-- `urllib.request.urlretrieve`: `none` means success, `some e` the
  text of the exception it raises. -/
  download_err : Option String
  /-- `os.path.exists` on the source when it is a local path. -/
  local_exists : Bool
  /-- `PIL.Image.open` on the resolved local file. -/
  open_image : Except String Nat
  /-- `pytesseract.image_to_string` on an image handle with a language
  configuration string. -/
  ocr : Nat → String → Except String String
  /-- `PyPDF2.PdfReader` on the resolved local file, abstracted to the
  list of per-page `extract_text()` results. -/
  read_pdf : Except String (List String)
  /-- `fitz.open` on the resolved local file: `none` means success. -/
  fitz_err : Option String
  /-- `doc.load_page(p).get_pixmap()` plus `PIL.Image.open`, yielding an
  image handle for page `p`. -/
  render_page : Nat → Except String Nat
  /-- Whether the `os.unlink` in the `finally` block succeeds. -/
  unlink_ok : Bool

/-- `PDFExtractor.download_file`: the temporary file is created first, so
its creation event is recorded even when the fetch then fails; a fetch
failure is wrapped as `Failed to download file from URL: ...`. -/
def download_file (env : Env) : Except String String × List FsEvent :=
  match env.download_err with
  | none => (Except.ok env.temp_path, [FsEvent.create env.temp_path])
  | some e =>
    (Except.error ("Failed to download file from URL: " ++ e),
      [FsEvent.create env.temp_path])

/-- `PDFExtractor.extract_text_from_image`: open the image, OCR it with
`lang='eng'`, and wrap any failure as
`Failed to extract text from image: ...`. -/
def extract_text_from_image (env : Env) : Except String String × List OcrCall :=
  match env.open_image with
  | Except.error e => (Except.error ("Failed to extract text from image: " ++ e), [])
  | Except.ok img =>
    match env.ocr img "eng" with
    | Except.error e =>
      (Except.error ("Failed to extract text from image: " ++ e), [⟨img, "eng"⟩])
    | Except.ok t => (Except.ok t, [⟨img, "eng"⟩])

/-- The page loop of `extract_text_from_scanned`: render each selected
page, OCR it with `lang='chi_sim+eng'`, and collect the
`Page N:\n...` blocks; the first exception aborts the loop. -/
def scannedPagesLoop (env : Env) : List Nat → Except String (List String) × List OcrCall
  | [] => (Except.ok [], [])
  | p :: rest =>
    match env.render_page p with
    | Except.error e => (Except.error e, [])
    | Except.ok img =>
      match env.ocr img "chi_sim+eng" with
      | Except.error e => (Except.error e, [⟨img, "chi_sim+eng"⟩])
      | Except.ok t =>
        match scannedPagesLoop env rest with
        | (Except.error e, calls) => (Except.error e, ⟨img, "chi_sim+eng"⟩ :: calls)
        | (Except.ok ts, calls) =>
          (Except.ok (("Page " ++ toString (p + 1) ++ ":\n" ++ t) :: ts),
            ⟨img, "chi_sim+eng"⟩ :: calls)

/-- `PDFExtractor.extract_text_from_scanned`: open the document with
`fitz`, run the page loop, and join the blocks with a blank line. -/
def extract_text_from_scanned (env : Env) (pages : List Nat) :
    Except String String × List OcrCall :=
  match env.fitz_err with
  | some e => (Except.error e, [])
  | none =>
    match scannedPagesLoop env pages with
    | (Except.error e, calls) => (Except.error e, calls)
    | (Except.ok ts, calls) => (Except.ok (String.intercalate "\n\n" ts), calls)

/-- The page loop of `extract_text_from_normal`: `reader.pages[p]` raises
an `IndexError` when `p` is out of range, and otherwise contributes the
block `Page N:\n` followed by the page's extracted text. -/
def normalPagesLoop (pageTexts : List String) : List Nat → Except String (List String)
  | [] => Except.ok []
  | p :: rest =>
    match pageTexts[p]? with
    | none => Except.error "sequence index out of range"
    | some t =>
      match normalPagesLoop pageTexts rest with
      | Except.error e => Except.error e
      | Except.ok ts => Except.ok (("Page " ++ toString (p + 1) ++ ":\n" ++ t) :: ts)

/-- `PDFExtractor.extract_text_from_normal`: read each selected page's
text layer and join the blocks with a blank line. -/
def extract_text_from_normal (pageTexts : List String) (pages : List Nat) :
    Except String String :=
  match normalPagesLoop pageTexts pages with
  | Except.error e => Except.error e
  | Except.ok ts => Except.ok (String.intercalate "\n\n" ts)

/-! ### `PDFExtractor.extract_content` -/

/-- The local path the pipeline works on after source resolution: the
freshly downloaded temporary file for a URL source, the source itself for
a local path. -/
def local_path (env : Env) (pdf_path : String) : String :=
  if env.is_url then env.temp_path else pdf_path

/-- The body of `extract_content` after source resolution and the
existence check: the image branch returns `Image content:` followed by the
OCR text before any PDF inspection happens; the PDF branch classifies via
`is_scanned_pdf`, reads the page count, parses the page selection and
dispatches to the matching extraction strategy.  Exceptions propagate
unwrapped; the outer handler wraps them. -/
def process (env : Env) (lp : String) (pages : Option String) :
    Except String String × List OcrCall :=
  if is_image_file lp then
    match extract_text_from_image env with
    | (Except.error e, calls) => (Except.error e, calls)
    | (Except.ok t, calls) => (Except.ok ("Image content:\n" ++ t), calls)
  else
    match env.read_pdf with
    | Except.error e => (Except.error e, [])
    | Except.ok pageTexts =>
      let is_scanned := is_scanned_pdf pageTexts
      let total_pages := pageTexts.length
      let selected_pages := parse_pages pages total_pages
      if is_scanned then extract_text_from_scanned env selected_pages
      else (extract_text_from_normal pageTexts selected_pages, [])

/-- The `try` block of `extract_content`: resolve the source (downloading
a URL into a temporary file — note that when the download itself fails the
local variable `temp_file` was never assigned, so the returned temp-file
component is `none`), check existence, and process.  Returns the value of
`temp_file`, the raw result, the filesystem events and the OCR calls. -/
def extract_body (env : Env) (pdf_path : String) (pages : Option String) :
    Option String × Except String String × List FsEvent × List OcrCall :=
  if env.is_url then
    match download_file env with
    | (Except.error e, fs) => (none, Except.error e, fs, [])
    | (Except.ok tp, fs) =>
      match process env tp pages with
      | (r, calls) => (some tp, r, fs, calls)
  else
    if env.local_exists = false then
      (none, Except.error ("File not found: " ++ pdf_path), [], [])
    else
      match process env pdf_path pages with
      | (r, calls) => (none, r, [], calls)

/-- The `except` handler of `extract_content`: every exception of the
`try` block is re-raised as `Failed to extract content: ...`. -/
def wrapErr : Except String String → Except String String
  | Except.ok s => Except.ok s
  | Except.error e => Except.error ("Failed to extract content: " ++ e)

/-- The `finally` block of `extract_content`: when `temp_file` was
assigned (it then still exists, as nothing has deleted it), `os.unlink`
is attempted and its failure is swallowed. -/
def cleanup (env : Env) (temp_file : Option String) (fs : List FsEvent) : List FsEvent :=
  match temp_file with
  | none => fs
  | some tp => if env.unlink_ok then fs ++ [FsEvent.unlink tp] else fs

/-- What one invocation of `extract_content` produces: its result or
raised error, its filesystem event trace, and its OCR calls. -/
structure Outcome where
  result : Except String String
  fs : List FsEvent
  ocrCalls : List OcrCall
deriving DecidableEq

/-- `PDFExtractor.extract_content`: the empty-source check precedes the
`try` block (so its error is not wrapped), then the body runs under the
wrap-on-exception handler and the cleanup `finally` block. -/
def extract_content (env : Env) (pdf_path : String) (pages : Option String) : Outcome :=
  if pdf_path.isEmpty then
    { result := Except.error "File path or URL cannot be empty", fs := [], ocrCalls := [] }
  else
    match extract_body env pdf_path pages with
    | (temp_file, r, fs, calls) =>
      { result := wrapErr r, fs := cleanup env temp_file fs, ocrCalls := calls }

/-! ### Reading the filesystem trace -/

/-- The paths the trace records as created. -/
def createdPaths (fs : List FsEvent) : List String :=
  fs.filterMap (fun e =>
    match e with
    | FsEvent.create p => some p
    | FsEvent.unlink _ => none)

/-- The paths the trace records as successfully deleted. -/
def deletedPaths (fs : List FsEvent) : List String :=
  fs.filterMap (fun e =>
    match e with
    | FsEvent.create _ => none
    | FsEvent.unlink p => some p)

/-- Whether a path that did not exist beforehand exists once the trace has
been replayed. -/
def existsAfter (fs : List FsEvent) (p : String) : Bool :=
  fs.foldl
    (fun b e =>
      match e with
      | FsEvent.create q => if q = p then true else b
      | FsEvent.unlink q => if q = p then false else b)
    false

/-! ### Page selection: helper lemmas -/

theorem spec_token_index_lt {tok : String} {t x : Nat}
    (h : spec_token_index tok t = some x) : x < t := by
  unfold spec_token_index at h
  dsimp only at h
  by_cases h0 : (pyStrip tok).isEmpty
  · rw [if_pos h0] at h; cases h
  · rw [if_neg h0] at h
    cases hp : pyInt (pyStrip tok) with
    | none => rw [hp] at h; cases h
    | some n =>
      rw [hp] at h
      dsimp only at h
      by_cases hn : n = 0
      · rw [if_pos hn] at h; cases h
      · rw [if_neg hn] at h
        by_cases hc : (0 : Int) ≤ (if 0 < n then n - 1 else (t : Int) + n)
            ∧ (if 0 < n then n - 1 else (t : Int) + n) < (t : Int)
        · rw [if_pos hc] at h
          cases h
          obtain ⟨hc1, hc2⟩ := hc
          by_cases hpos : (0 : Int) < n
          · rw [if_pos hpos] at hc1 hc2 ⊢
            omega
          · rw [if_neg hpos] at hc1 hc2 ⊢
            omega
        · rw [if_neg hc] at h; cases h

theorem parse_token_eq (pages : List Nat) (part : String) (t : Nat) :
    parse_token pages part t = pages ++ (spec_token_index part t).toList := by
  unfold parse_token spec_token_index
  dsimp only
  by_cases h0 : (pyStrip part).isEmpty
  · rw [if_pos h0, if_pos h0]
    simp
  · rw [if_neg h0, if_neg h0]
    cases hp : pyInt (pyStrip part) with
    | none => simp
    | some n =>
      dsimp only
      rcases lt_trichotomy n 0 with hn | hn | hn
      · rw [if_pos hn, if_neg (show n ≠ 0 by omega),
          if_neg (show ¬ (0 : Int) < n by omega)]
        by_cases hc : (0 : Int) ≤ (t : Int) + n ∧ (t : Int) + n < (t : Int)
        · rw [if_pos hc, if_pos hc]; simp
        · rw [if_neg hc, if_neg hc]; simp
      · subst hn
        rw [if_neg (lt_irrefl (0 : Int)), if_neg (lt_irrefl (0 : Int)), if_pos rfl]
        simp
      · rw [if_neg (show ¬ n < 0 by omega), if_pos hn,
          if_neg (show n ≠ 0 by omega), if_pos hn]
        by_cases hc : (0 : Int) ≤ n - 1 ∧ n - 1 < (t : Int)
        · rw [if_pos hc, if_pos hc]; simp
        · rw [if_neg hc, if_neg hc]; simp

theorem foldl_parse_token (t : Nat) (l : List String) :
    ∀ acc : List Nat,
      l.foldl (fun pages part => parse_token pages part t) acc
        = acc ++ l.filterMap (fun tok => spec_token_index tok t) := by
  induction l with
  | nil => intro acc; simp
  | cons a l ih =>
    intro acc
    rw [List.foldl_cons, List.filterMap_cons, parse_token_eq, ih]
    cases h : spec_token_index a t <;> simp

/-- The two page selectors — `parse_pages` translated from the source,
`parse_pages_spec` from the spec's PageSelector contract — agree. -/
theorem parse_pages_eq_spec (p : Option String) (t : Nat) :
    parse_pages p t = parse_pages_spec p t := by
  unfold parse_pages parse_pages_spec
  cases p with
  | none => rfl
  | some s =>
    dsimp only
    by_cases hs : s.isEmpty
    · rw [if_pos hs, if_pos hs]
    · rw [if_neg hs, if_neg hs, foldl_parse_token, List.nil_append]

theorem parse_pages_spec_nodup (p : Option String) (t : Nat) :
    (parse_pages_spec p t).Nodup := by
  unfold parse_pages_spec
  cases p with
  | none => exact List.nodup_range t
  | some s =>
    dsimp only
    by_cases hs : s.isEmpty
    · rw [if_pos hs]
      exact List.nodup_range t
    · rw [if_neg hs]
      exact (List.perm_insertionSort _ _).nodup_iff.mpr (List.nodup_dedup _)

theorem parse_pages_spec_sorted (p : Option String) (t : Nat) :
    List.Sorted (· < ·) (parse_pages_spec p t) := by
  have hnd := parse_pages_spec_nodup p t
  unfold parse_pages_spec at hnd ⊢
  cases p with
  | none => exact List.sorted_lt_range t
  | some s =>
    dsimp only at hnd ⊢
    by_cases hs : s.isEmpty
    · rw [if_pos hs]
      exact List.sorted_lt_range t
    · rw [if_neg hs] at hnd ⊢
      exact (List.sorted_insertionSort _ _).lt_of_le hnd

theorem parse_pages_spec_mem_lt {p : Option String} {t x : Nat}
    (h : x ∈ parse_pages_spec p t) : x < t := by
  unfold parse_pages_spec at h
  cases p with
  | none => exact List.mem_range.mp h
  | some s =>
    dsimp only at h
    by_cases hs : s.isEmpty
    · rw [if_pos hs] at h
      exact List.mem_range.mp h
    · rw [if_neg hs] at h
      rw [List.mem_insertionSort, List.mem_dedup, List.mem_filterMap] at h
      obtain ⟨tok, _, htok⟩ := h
      exact spec_token_index_lt htok

theorem parse_pages_nodup (p : Option String) (t : Nat) : (parse_pages p t).Nodup := by
  rw [parse_pages_eq_spec]; exact parse_pages_spec_nodup p t

theorem parse_pages_sorted (p : Option String) (t : Nat) :
    List.Sorted (· < ·) (parse_pages p t) := by
  rw [parse_pages_eq_spec]; exact parse_pages_spec_sorted p t

theorem parse_pages_mem_lt {p : Option String} {t x : Nat}
    (h : x ∈ parse_pages p t) : x < t := by
  rw [parse_pages_eq_spec] at h; exact parse_pages_spec_mem_lt h

/-! ### Classification: helper lemmas -/

theorem is_scanned_pdf_iff (pageTexts : List String) :
    is_scanned_pdf pageTexts = true ↔ ∀ t ∈ pageTexts, (pyStrip t).isEmpty = true := by
  induction pageTexts with
  | nil => simp [is_scanned_pdf]
  | cons t rest ih =>
    unfold is_scanned_pdf
    cases hb : (pyStrip t).isEmpty with
    | true => simp [ih, hb]
    | false => simp [hb]

theorem is_scanned_pdf_first_text (pre : List String) (t : String) (suf : List String)
    (hpre : ∀ u ∈ pre, (pyStrip u).isEmpty = true) (ht : (pyStrip t).isEmpty = false) :
    is_scanned_pdf (pre ++ t :: suf) = false := by
  induction pre with
  | nil =>
    unfold is_scanned_pdf
    simp [ht]
  | cons u pre ih =>
    have hu : (pyStrip u).isEmpty = true := hpre u (List.mem_cons_self u pre)
    rw [List.cons_append]
    unfold is_scanned_pdf
    rw [hu]
    simpa using ih (fun v hv => hpre v (List.mem_cons_of_mem u hv))

/-! ### Extraction strategies: helper lemmas -/

theorem normalPagesLoop_ok (pageTexts : List String) :
    ∀ sel : List Nat, (∀ i ∈ sel, i < pageTexts.length) →
      normalPagesLoop pageTexts sel
        = Except.ok (sel.map
            (fun n => "Page " ++ toString (n + 1) ++ ":\n" ++ pageTexts.getD n "")) := by
  intro sel
  induction sel with
  | nil => intro _; rfl
  | cons p rest ih =>
    intro h
    have hp : p < pageTexts.length := h p (List.mem_cons_self p rest)
    have hrest := ih (fun i hi => h i (List.mem_cons_of_mem p hi))
    unfold normalPagesLoop
    rw [show pageTexts[p]? = some (pageTexts.getD p "") by
      rw [List.getD_eq_getElem?_getD, List.getElem?_eq_getElem hp, Option.getD_some]]
    rw [hrest]
    rfl

theorem extract_text_from_normal_ok (pageTexts : List String) (sel : List Nat)
    (h : ∀ i ∈ sel, i < pageTexts.length) :
    extract_text_from_normal pageTexts sel
      = Except.ok (String.intercalate "\n\n" (sel.map
          (fun n => "Page " ++ toString (n + 1) ++ ":\n" ++ pageTexts.getD n ""))) := by
  unfold extract_text_from_normal
  rw [normalPagesLoop_ok pageTexts sel h]

theorem scannedPagesLoop_lang (env : Env) :
    ∀ sel : List Nat, ∀ c ∈ (scannedPagesLoop env sel).2, c.lang = "chi_sim+eng" := by
  intro sel
  induction sel with
  | nil => intro c hc; cases hc
  | cons p rest ih =>
    intro c hc
    unfold scannedPagesLoop at hc
    cases hr : env.render_page p with
    | error e => rw [hr] at hc; cases hc
    | ok img =>
      rw [hr] at hc
      dsimp only at hc
      cases ho : env.ocr img "chi_sim+eng" with
      | error e =>
        rw [ho] at hc
        dsimp only at hc
        rcases List.mem_singleton.mp hc with rfl
        rfl
      | ok t =>
        rw [ho] at hc
        dsimp only at hc
        rcases hl : scannedPagesLoop env rest with ⟨r, calls⟩
        rw [hl] at hc
        have ih2 : ∀ c ∈ calls, c.lang = "chi_sim+eng" := by
          intro c hc2
          exact ih c (by rw [hl]; exact hc2)
        cases r with
        | error e =>
          dsimp only at hc
          rcases List.mem_cons.mp hc with rfl | hc2
          · rfl
          · exact ih2 c hc2
        | ok ts =>
          dsimp only at hc
          rcases List.mem_cons.mp hc with rfl | hc2
          · rfl
          · exact ih2 c hc2

theorem extract_text_from_scanned_lang (env : Env) (sel : List Nat) :
    ∀ c ∈ (extract_text_from_scanned env sel).2, c.lang = "chi_sim+eng" := by
  intro c hc
  unfold extract_text_from_scanned at hc
  cases hf : env.fitz_err with
  | some e => rw [hf] at hc; cases hc
  | none =>
    rw [hf] at hc
    dsimp only at hc
    rcases hl : scannedPagesLoop env sel with ⟨r, calls⟩
    rw [hl] at hc
    have := scannedPagesLoop_lang env sel
    rw [hl] at this
    cases r with
    | error e => exact this c hc
    | ok ts => exact this c hc

theorem extract_text_from_image_lang (env : Env) :
    ∀ c ∈ (extract_text_from_image env).2, c.lang = "eng" := by
  intro c hc
  unfold extract_text_from_image at hc
  cases ho : env.open_image with
  | error e => rw [ho] at hc; cases hc
  | ok img =>
    rw [ho] at hc
    dsimp only at hc
    cases hr : env.ocr img "eng" with
    | error e =>
      rw [hr] at hc
      rcases List.mem_singleton.mp hc with rfl
      rfl
    | ok t =>
      rw [hr] at hc
      rcases List.mem_singleton.mp hc with rfl
      rfl

/-! ### `extract_content`: decomposition lemmas -/

theorem extract_content_of_empty (env : Env) {pdf_path : String}
    (h : pdf_path.isEmpty = true) (pages : Option String) :
    extract_content env pdf_path pages =
      { result := Except.error "File path or URL cannot be empty",
        fs := [], ocrCalls := [] } := by
  unfold extract_content
  rw [if_pos h]

theorem extract_content_url_fail (env : Env) {pdf_path : String}
    (h : pdf_path.isEmpty = false) (hu : env.is_url = true) {e : String}
    (hd : env.download_err = some e) (pages : Option String) :
    extract_content env pdf_path pages =
      { result := Except.error
          ("Failed to extract content: Failed to download file from URL: " ++ e),
        fs := [FsEvent.create env.temp_path], ocrCalls := [] } := by
  unfold extract_content extract_body download_file
  rw [if_neg (by rw [h]; exact Bool.false_ne_true), if_pos hu, hd]
  rfl

theorem extract_content_url_ok (env : Env) {pdf_path : String}
    (h : pdf_path.isEmpty = false) (hu : env.is_url = true)
    (hd : env.download_err = none) (pages : Option String) :
    extract_content env pdf_path pages =
      { result := wrapErr (process env env.temp_path pages).1,
        fs := if env.unlink_ok then
            [FsEvent.create env.temp_path, FsEvent.unlink env.temp_path]
          else [FsEvent.create env.temp_path],
        ocrCalls := (process env env.temp_path pages).2 } := by
  unfold extract_content extract_body download_file
  rw [if_neg (by rw [h]; exact Bool.false_ne_true), if_pos hu, hd]
  dsimp only
  rcases hp : process env env.temp_path pages with ⟨r, calls⟩
  unfold cleanup
  cases env.unlink_ok <;> rfl

theorem extract_content_local_missing (env : Env) {pdf_path : String}
    (h : pdf_path.isEmpty = false) (hu : env.is_url = false)
    (hl : env.local_exists = false) (pages : Option String) :
    extract_content env pdf_path pages =
      { result := Except.error ("Failed to extract content: File not found: " ++ pdf_path),
        fs := [], ocrCalls := [] } := by
  unfold extract_content extract_body
  rw [if_neg (by rw [h]; exact Bool.false_ne_true),
    if_neg (by rw [hu]; exact Bool.false_ne_true), if_pos hl]
  rfl

theorem extract_content_local_ok (env : Env) {pdf_path : String}
    (h : pdf_path.isEmpty = false) (hu : env.is_url = false)
    (hl : env.local_exists = true) (pages : Option String) :
    extract_content env pdf_path pages =
      { result := wrapErr (process env pdf_path pages).1,
        fs := [], ocrCalls := (process env pdf_path pages).2 } := by
  unfold extract_content extract_body
  rw [if_neg (by rw [h]; exact Bool.false_ne_true),
    if_neg (by rw [hu]; exact Bool.false_ne_true),
    if_neg (by simp [hl])]
  dsimp only
  rcases hp : process env pdf_path pages with ⟨r, calls⟩
  rfl

/-! ### `process`: helper lemmas -/

theorem process_image_pages_indep (env : Env) {lp : String}
    (h : is_image_file lp = true) (p1 p2 : Option String) :
    process env lp p1 = process env lp p2 := by
  unfold process
  rw [if_pos h, if_pos h]

theorem process_image_spec (env : Env) {lp : String} (h : is_image_file lp = true)
    (pages : Option String) :
    process env lp pages =
      match extract_text_from_image env with
      | (Except.error e, calls) => (Except.error e, calls)
      | (Except.ok t, calls) => (Except.ok ("Image content:\n" ++ t), calls) := by
  unfold process
  rw [if_pos h]

theorem process_pdf_spec (env : Env) {lp : String} (h : is_image_file lp = false)
    (pages : Option String) :
    process env lp pages =
      match env.read_pdf with
      | Except.error e => (Except.error e, [])
      | Except.ok pageTexts =>
        if is_scanned_pdf pageTexts then
          extract_text_from_scanned env (parse_pages pages pageTexts.length)
        else (extract_text_from_normal pageTexts (parse_pages pages pageTexts.length), []) := by
  unfold process
  rw [if_neg (by simp [h])]

/-! ### Failure conditions, in the vocabulary of the spec -/

/-- Failure of the standalone-image strategy: opening the image or
recognizing it fails. -/
def image_ocr_fails (env : Env) : Bool :=
  match env.open_image with
  | Except.error _ => true
  | Except.ok img =>
    match env.ocr img "eng" with
    | Except.error _ => true
    | Except.ok _ => false

/-- Failure of the scanned strategy on one page: rasterizing the page or
recognizing the raster fails. -/
def page_ocr_fails (env : Env) (p : Nat) : Bool :=
  match env.render_page p with
  | Except.error _ => true
  | Except.ok img =>
    match env.ocr img "chi_sim+eng" with
    | Except.error _ => true
    | Except.ok _ => false

/-- The failure condition the claim enumerates for `extract_content`:
empty source reference, download failure, missing local file, or
classification/extraction failure (opening the document, or the OCR
strategy over the selected pages).  An empty page selection appears
nowhere in this condition. -/
def extract_fails (env : Env) (pdf_path : String) (pages : Option String) : Bool :=
  pdf_path.isEmpty
  || (env.is_url && env.download_err.isSome)
  || (!env.is_url && !env.local_exists)
  || (if is_image_file (local_path env pdf_path) then image_ocr_fails env
      else
        match env.read_pdf with
        | Except.error _ => true
        | Except.ok pageTexts =>
          is_scanned_pdf pageTexts
            && (env.fitz_err.isSome
                || (parse_pages pages pageTexts.length).any (page_ocr_fails env)))

theorem extract_text_from_image_isOk (env : Env) :
    (extract_text_from_image env).1.isOk = !image_ocr_fails env := by
  unfold extract_text_from_image image_ocr_fails
  cases env.open_image with
  | error e => rfl
  | ok img =>
    dsimp only
    cases env.ocr img "eng" <;> rfl

theorem not_any_eq_all_not {α : Type} (l : List α) (f : α → Bool) :
    (!(l.any f)) = l.all (fun x => !f x) := by
  induction l with
  | nil => rfl
  | cons a l ih =>
    rw [List.any_cons, List.all_cons, ← ih]
    cases f a <;> rfl

theorem scannedPagesLoop_isOk (env : Env) :
    ∀ sel : List Nat,
      (scannedPagesLoop env sel).1.isOk = sel.all (fun p => !page_ocr_fails env p) := by
  intro sel
  induction sel with
  | nil => rfl
  | cons p rest ih =>
    rw [List.all_cons]
    unfold scannedPagesLoop
    cases hr : env.render_page p with
    | error e =>
      have hp : page_ocr_fails env p = true := by unfold page_ocr_fails; rw [hr]
      rw [hp]
      rfl
    | ok img =>
      dsimp only
      cases ho : env.ocr img "chi_sim+eng" with
      | error e =>
        have hp : page_ocr_fails env p = true := by
          unfold page_ocr_fails; rw [hr]; dsimp only; rw [ho]
        rw [hp]
        rfl
      | ok t =>
        have hp : page_ocr_fails env p = false := by
          unfold page_ocr_fails; rw [hr]; dsimp only; rw [ho]
        rw [hp]
        dsimp only
        rcases hl : scannedPagesLoop env rest with ⟨r, calls⟩
        rw [hl] at ih
        cases r with
        | error e => exact ih
        | ok ts => exact ih

theorem extract_text_from_scanned_isOk (env : Env) (sel : List Nat) :
    (extract_text_from_scanned env sel).1.isOk
      = (!env.fitz_err.isSome && sel.all (fun p => !page_ocr_fails env p)) := by
  unfold extract_text_from_scanned
  cases hf : env.fitz_err with
  | some e => rfl
  | none =>
    rcases hl : scannedPagesLoop env sel with ⟨r, calls⟩
    have hok := scannedPagesLoop_isOk env sel
    rw [hl] at hok
    cases r with
    | error e => exact hok
    | ok ts => exact hok

theorem extract_text_from_normal_parse_ok (pageTexts : List String) (pages : Option String) :
    extract_text_from_normal pageTexts (parse_pages pages pageTexts.length)
      = Except.ok (String.intercalate "\n\n"
          ((parse_pages pages pageTexts.length).map
            (fun n => "Page " ++ toString (n + 1) ++ ":\n" ++ pageTexts.getD n ""))) :=
  extract_text_from_normal_ok _ _ (fun _ hi => parse_pages_mem_lt hi)

theorem process_isOk (env : Env) (lp : String) (pages : Option String) :
    (process env lp pages).1.isOk
      = !(if is_image_file lp then image_ocr_fails env
          else
            match env.read_pdf with
            | Except.error _ => true
            | Except.ok pageTexts =>
              is_scanned_pdf pageTexts
                && (env.fitz_err.isSome
                    || (parse_pages pages pageTexts.length).any (page_ocr_fails env))) := by
  by_cases h : is_image_file lp
  · rw [process_image_spec env h, if_pos h]
    rcases hi : extract_text_from_image env with ⟨r, calls⟩
    have hok := extract_text_from_image_isOk env
    rw [hi] at hok
    cases r with
    | error e => exact hok
    | ok t => exact hok
  · have h' : is_image_file lp = false := by simpa using h
    rw [process_pdf_spec env h', if_neg h]
    cases hr : env.read_pdf with
    | error e => rfl
    | ok pts =>
      dsimp only
      by_cases hs : is_scanned_pdf pts
      · rw [if_pos hs, hs, extract_text_from_scanned_isOk, Bool.true_and, Bool.not_or,
          not_any_eq_all_not]
      · have hs' : is_scanned_pdf pts = false := by simpa using hs
        rw [if_neg hs, hs', extract_text_from_normal_parse_ok, Bool.false_and]
        rfl

theorem wrapErr_isOk (r : Except String String) : (wrapErr r).isOk = r.isOk := by
  cases r <;> rfl

theorem wrapErr_error {r : Except String String} {m : String}
    (h : wrapErr r = Except.error m) :
    ∃ c, m = "Failed to extract content: " ++ c ∧ r = Except.error c := by
  cases r with
  | ok s => cases h
  | error e =>
    unfold wrapErr at h
    cases h
    exact ⟨e, rfl, rfl⟩

theorem wrapErr_ok {r : Except String String} {s : String}
    (h : wrapErr r = Except.ok s) : r = Except.ok s := by
  cases r with
  | ok t => exact h
  | error e => cases h

theorem process_image_ok (env : Env) {lp s : String} (h : is_image_file lp = true)
    {pages : Option String} (hs : (process env lp pages).1 = Except.ok s) :
    ∃ t, s = "Image content:\n" ++ t := by
  rw [process_image_spec env h] at hs
  rcases hi : extract_text_from_image env with ⟨r, calls⟩
  rw [hi] at hs
  cases r with
  | error e => cases hs
  | ok t =>
    dsimp only at hs
    cases hs
    exact ⟨t, rfl⟩

theorem process_calls_lang (env : Env) (lp : String) (pages : Option String) (c : OcrCall)
    (hc : c ∈ (process env lp pages).2) :
    if is_image_file lp then c.lang = "eng" else c.lang = "chi_sim+eng" := by
  by_cases h : is_image_file lp
  · rw [if_pos h]
    rw [process_image_spec env h] at hc
    rcases hi : extract_text_from_image env with ⟨r, calls⟩
    rw [hi] at hc
    have hl := extract_text_from_image_lang env
    rw [hi] at hl
    cases r with
    | error e => exact hl c hc
    | ok t => exact hl c hc
  · have h' : is_image_file lp = false := by simpa using h
    rw [if_neg h]
    rw [process_pdf_spec env h'] at hc
    cases hr : env.read_pdf with
    | error e => rw [hr] at hc; cases hc
    | ok pts =>
      rw [hr] at hc
      dsimp only at hc
      by_cases hs : is_scanned_pdf pts
      · rw [if_pos hs] at hc
        exact extract_text_from_scanned_lang env _ c hc
      · rw [if_neg hs] at hc
        cases hc

/-! ### Concrete environments used for the closed instances -/

/-- A concrete environment: local source, readable one-page text PDF,
every external call succeeding. -/
def sampleEnv : Env where
  is_url := false
  temp_path := "/tmp/sample.tmp"
  download_err := none
  local_exists := true
  open_image := Except.ok 0
  ocr := fun _ _ => Except.ok "text"
  read_pdf := Except.ok ["Hello"]
  fitz_err := none
  render_page := fun _ => Except.ok 0
  unlink_ok := true

/-- Environment of a URL invocation whose download fails. -/
def downloadFailEnv : Env :=
  { sampleEnv with is_url := true, temp_path := "/tmp/dl.tmp",
                   download_err := some "connection refused" }

/-- Environment of a URL invocation whose download succeeds. -/
def downloadOkEnv : Env :=
  { sampleEnv with is_url := true, temp_path := "/tmp/dl.tmp" }

/-! ### The claims -/

/-- C2: for every page-spec string (including absent or empty) and every
non-negative total page count, the selection returned by `parse_pages` is
strictly ascending, contains no duplicate indices, and every element lies
within `[0, totalPages)`. -/
theorem parse_pages_selection_wellformed (pages_str : Option String) (total_pages : Nat) :
    List.Sorted (· < ·) (parse_pages pages_str total_pages)
    ∧ (parse_pages pages_str total_pages).Nodup
    ∧ ∀ x ∈ parse_pages pages_str total_pages, x < total_pages :=
  ⟨parse_pages_sorted _ _, parse_pages_nodup _ _, fun _ hx => parse_pages_mem_lt hx⟩

theorem parse_pages_selection_wellformed_witness :
    List.Sorted (· < ·) (parse_pages (some "3,1,3,-1") 5)
    ∧ (parse_pages (some "3,1,3,-1") 5).Nodup
    ∧ 2 < 5 :=
  ⟨(parse_pages_selection_wellformed (some "3,1,3,-1") 5).1,
   (parse_pages_selection_wellformed (some "3,1,3,-1") 5).2.1,
   (parse_pages_selection_wellformed (some "3,1,3,-1") 5).2.2 2 (by decide)⟩

/-- C3: `parse_pages` equals the reference definition `parse_pages_spec`
(absent/empty spec selects all pages; tokens are trimmed; empty,
non-integer and zero tokens are silently skipped; positive `n` maps to
`n - 1`, negative `n` to `totalPages + n`; out-of-range indices are
dropped; the result is deduplicated and sorted ascending), and the four
cited evaluations hold. -/
theorem parse_pages_matches_reference :
    (∀ (pages_str : Option String) (total_pages : Nat),
        parse_pages pages_str total_pages = parse_pages_spec pages_str total_pages)
    ∧ parse_pages (some "1,-1") 5 = [0, 4]
    ∧ parse_pages (some "0") 5 = []
    ∧ parse_pages (some "10") 5 = []
    ∧ parse_pages none 3 = [0, 1, 2] :=
  ⟨parse_pages_eq_spec, by decide, by decide, by decide, by decide⟩

/-- C5: `is_scanned_pdf` classifies a document as scanned exactly when
every page's extractable text is empty or whitespace-only; moreover, as
soon as a page with non-whitespace text is reached, the classification is
text-based (`false`) no matter what the remaining pages contain, so the
inspection stops at the first such page. -/
theorem is_scanned_pdf_characterization :
    (∀ pageTexts : List String,
        (is_scanned_pdf pageTexts = true ↔ ∀ t ∈ pageTexts, (pyStrip t).isEmpty = true))
    ∧ ∀ (pre : List String) (t : String) (suf1 suf2 : List String),
        (∀ u ∈ pre, (pyStrip u).isEmpty = true) → (pyStrip t).isEmpty = false →
          is_scanned_pdf (pre ++ t :: suf1) = false
          ∧ is_scanned_pdf (pre ++ t :: suf1) = is_scanned_pdf (pre ++ t :: suf2) :=
  ⟨is_scanned_pdf_iff,
   fun pre t suf1 suf2 hpre ht =>
     ⟨is_scanned_pdf_first_text pre t suf1 hpre ht,
      (is_scanned_pdf_first_text pre t suf1 hpre ht).trans
        (is_scanned_pdf_first_text pre t suf2 hpre ht).symm⟩⟩

theorem is_scanned_pdf_characterization_witness :
    (is_scanned_pdf ["  ", "hi"] = true ↔ ∀ t ∈ ["  ", "hi"], (pyStrip t).isEmpty = true)
    ∧ is_scanned_pdf (["  "] ++ "hi" :: ["x"]) = false :=
  ⟨is_scanned_pdf_characterization.1 ["  ", "hi"],
   (is_scanned_pdf_characterization.2 ["  "] "hi" ["x"] [] (by decide) (by decide)).1⟩

/-- C6: for a text-based PDF, the direct strategy returns the blocks
`Page N:` followed by that page's embedded text, one per selected index in
the order of the (strictly ascending) selection, joined by a blank line;
in particular a one-page PDF containing `Hello` with page spec `1` yields
exactly `Page 1:\nHello`. -/
theorem extract_text_from_normal_format :
    (∀ (pageTexts : List String) (pages_str : Option String),
        extract_text_from_normal pageTexts (parse_pages pages_str pageTexts.length)
          = Except.ok (String.intercalate "\n\n"
              ((parse_pages pages_str pageTexts.length).map
                (fun n => "Page " ++ toString (n + 1) ++ ":\n" ++ pageTexts.getD n "")))
        ∧ List.Sorted (· < ·) (parse_pages pages_str pageTexts.length))
    ∧ extract_text_from_normal ["Hello"] (parse_pages (some "1") 1)
        = Except.ok "Page 1:\nHello" :=
  ⟨fun pts p => ⟨extract_text_from_normal_parse_ok pts p, parse_pages_sorted _ _⟩,
   by decide⟩

/-- C1 counterexample: in an invocation classified as a URL whose download
fails, `download_file` has already created the temporary file but
`extract_content`'s local `temp_file` variable was never assigned, so the
`finally` block deletes nothing: the temporary file still exists when the
invocation terminates. -/
theorem temp_file_leak_on_download_failure :
    createdPaths (extract_content downloadFailEnv "http://host/a.pdf" none).fs
      = ["/tmp/dl.tmp"]
    ∧ existsAfter (extract_content downloadFailEnv "http://host/a.pdf" none).fs
        "/tmp/dl.tmp" = true := by
  constructor <;> decide

/-- C1 (amended): in every invocation classified as a URL, exactly one
temporary file is created; when the download succeeds (and the operating
system's unlink succeeds) it no longer exists on any termination path, but
when the download itself fails the temporary file is leaked: it still
exists when the invocation terminates. -/
theorem temp_file_lifecycle (env : Env) (pdf_path : String) (pages : Option String)
    (hu : env.is_url = true) (he : pdf_path.isEmpty = false) :
    createdPaths (extract_content env pdf_path pages).fs = [env.temp_path]
    ∧ (env.download_err = none → env.unlink_ok = true →
        existsAfter (extract_content env pdf_path pages).fs env.temp_path = false)
    ∧ (∀ e, env.download_err = some e →
        existsAfter (extract_content env pdf_path pages).fs env.temp_path = true) := by
  cases hd : env.download_err with
  | some e =>
    rw [extract_content_url_fail env he hu hd pages]
    refine ⟨rfl, ?_, ?_⟩
    · intro h; exact Option.noConfusion h
    · intro e2 _
      simp [existsAfter]
  | none =>
    rw [extract_content_url_ok env he hu hd pages]
    refine ⟨?_, ?_, ?_⟩
    · cases env.unlink_ok <;> rfl
    · intro _ hk
      rw [if_pos hk]
      simp [existsAfter]
    · intro e h; exact Option.noConfusion h

theorem temp_file_lifecycle_witness :
    createdPaths (extract_content downloadOkEnv "http://host/a.pdf" none).fs
      = ["/tmp/dl.tmp"]
    ∧ existsAfter (extract_content downloadOkEnv "http://host/a.pdf" none).fs
        "/tmp/dl.tmp" = false :=
  ⟨(temp_file_lifecycle downloadOkEnv "http://host/a.pdf" none (by decide) (by decide)).1,
   (temp_file_lifecycle downloadOkEnv "http://host/a.pdf" none (by decide)
      (by decide)).2.1 (by decide) (by decide)⟩

/-- C4: `extract_content` fails exactly when the source is empty, the
source is a URL whose download fails, the source is a local path that does
not exist, or classification/extraction fails (an empty page selection is
not in this condition); every raised error is a single one whose message
embeds the original cause text; and on a nonexistent local path the error
message contains `File not found`. -/
theorem extract_content_error_boundary (env : Env) (pdf_path : String)
    (pages : Option String) :
    ((extract_content env pdf_path pages).result.isOk
        = !extract_fails env pdf_path pages)
    ∧ (∀ m, (extract_content env pdf_path pages).result = Except.error m →
        (pdf_path.isEmpty = true ∧ m = "File path or URL cannot be empty")
        ∨ ∃ c, m = "Failed to extract content: " ++ c)
    ∧ (pdf_path.isEmpty = false → env.is_url = false → env.local_exists = false →
        (extract_content env pdf_path pages).result
          = Except.error ("Failed to extract content: File not found: " ++ pdf_path)) := by
  refine ⟨?_, ?_, ?_⟩
  · cases he : pdf_path.isEmpty with
    | true =>
      rw [extract_content_of_empty env he pages]
      unfold extract_fails
      rw [he]
      rfl
    | false =>
      unfold extract_fails
      rw [he]
      cases hu : env.is_url with
      | true =>
        cases hd : env.download_err with
        | some e =>
          rw [extract_content_url_fail env he hu hd pages]
          rfl
        | none =>
          rw [extract_content_url_ok env he hu hd pages]
          dsimp only
          rw [wrapErr_isOk, process_isOk,
            show local_path env pdf_path = env.temp_path by simp [local_path, hu]]
          rfl
      | false =>
        cases hl : env.local_exists with
        | false =>
          rw [extract_content_local_missing env he hu hl pages]
          rfl
        | true =>
          rw [extract_content_local_ok env he hu hl pages]
          dsimp only
          rw [wrapErr_isOk, process_isOk,
            show local_path env pdf_path = pdf_path by simp [local_path, hu]]
          rfl
  · intro m hm
    cases he : pdf_path.isEmpty with
    | true =>
      rw [extract_content_of_empty env he pages] at hm
      cases hm
      exact Or.inl ⟨rfl, rfl⟩
    | false =>
      cases hu : env.is_url with
      | true =>
        cases hd : env.download_err with
        | some e =>
          rw [extract_content_url_fail env he hu hd pages] at hm
          cases hm
          exact Or.inr ⟨"Failed to download file from URL: " ++ e, rfl⟩
        | none =>
          rw [extract_content_url_ok env he hu hd pages] at hm
          obtain ⟨c, hc, _⟩ := wrapErr_error hm
          exact Or.inr ⟨c, hc⟩
      | false =>
        cases hl : env.local_exists with
        | false =>
          rw [extract_content_local_missing env he hu hl pages] at hm
          cases hm
          exact Or.inr ⟨"File not found: " ++ pdf_path, rfl⟩
        | true =>
          rw [extract_content_local_ok env he hu hl pages] at hm
          obtain ⟨c, hc, _⟩ := wrapErr_error hm
          exact Or.inr ⟨c, hc⟩
  · intro he hu hl
    rw [extract_content_local_missing env he hu hl pages]

theorem extract_content_error_boundary_witness :
    (extract_content sampleEnv "a.pdf" (some "0")).result.isOk = true
    ∧ (extract_content { sampleEnv with local_exists := false } "nope.pdf" none).result
        = Except.error "Failed to extract content: File not found: nope.pdf" := by
  constructor
  · rw [(extract_content_error_boundary sampleEnv "a.pdf" (some "0")).1]
    decide
  · exact (extract_content_error_boundary { sampleEnv with local_exists := false }
      "nope.pdf" none).2.2 (by decide) (by decide) (by decide)

theorem process_image_agree (env env2 : Env) (hoi : env2.open_image = env.open_image)
    (hocr : env2.ocr = env.ocr) {lp : String} (h : is_image_file lp = true)
    (pages p2 : Option String) :
    process env lp pages = process env2 lp p2 := by
  rw [process_image_spec env h, process_image_spec env2 h]
  unfold extract_text_from_image
  rw [hoi, hocr]

/-- C7: a resource whose extension (case-insensitively) is on the fixed
image allow-list is classified as an image; the classification and the
whole invocation are independent of the PDF-reading environment (no PDF
inspection happens); and every successful `extract_content` call on such a
resource returns `Image content:` followed by a newline and the OCR text,
with no per-page structure. -/
theorem image_classification_and_output :
    (∀ path : String,
        is_image_file path
          = ([".jpg", ".jpeg", ".png", ".gif", ".bmp", ".tiff", ".webp"].contains
              (pyLower (splitext_ext path))))
    ∧ (∀ (env env2 : Env) (pdf_path : String) (pages : Option String),
        env2.is_url = env.is_url → env2.temp_path = env.temp_path →
        env2.download_err = env.download_err → env2.local_exists = env.local_exists →
        env2.open_image = env.open_image → env2.ocr = env.ocr →
        env2.unlink_ok = env.unlink_ok →
        is_image_file (local_path env pdf_path) = true →
          extract_content env pdf_path pages = extract_content env2 pdf_path pages)
    ∧ ∀ (env : Env) (pdf_path : String) (pages : Option String) (s : String),
        is_image_file (local_path env pdf_path) = true →
          (extract_content env pdf_path pages).result = Except.ok s →
            ∃ t, s = "Image content:\n" ++ t := by
  refine ⟨fun _ => rfl, ?_, ?_⟩
  · intro env env2 pdf_path pages hiu htp hdl hle hoi hocr huk h
    cases he : pdf_path.isEmpty with
    | true => rw [extract_content_of_empty env he pages, extract_content_of_empty env2 he pages]
    | false =>
      cases hu : env.is_url with
      | true =>
        have hu2 : env2.is_url = true := by rw [hiu, hu]
        have hlp : local_path env pdf_path = env.temp_path := by simp [local_path, hu]
        rw [hlp] at h
        cases hd : env.download_err with
        | some e =>
          have hd2 : env2.download_err = some e := by rw [hdl, hd]
          rw [extract_content_url_fail env he hu hd pages,
            extract_content_url_fail env2 he hu2 hd2 pages, htp]
        | none =>
          have hd2 : env2.download_err = none := by rw [hdl, hd]
          rw [extract_content_url_ok env he hu hd pages,
            extract_content_url_ok env2 he hu2 hd2 pages, htp, huk,
            process_image_agree env env2 hoi hocr h pages pages]
      | false =>
        have hu2 : env2.is_url = false := by rw [hiu, hu]
        have hlp : local_path env pdf_path = pdf_path := by simp [local_path, hu]
        rw [hlp] at h
        cases hl : env.local_exists with
        | false =>
          have hl2 : env2.local_exists = false := by rw [hle, hl]
          rw [extract_content_local_missing env he hu hl pages,
            extract_content_local_missing env2 he hu2 hl2 pages]
        | true =>
          have hl2 : env2.local_exists = true := by rw [hle, hl]
          rw [extract_content_local_ok env he hu hl pages,
            extract_content_local_ok env2 he hu2 hl2 pages,
            process_image_agree env env2 hoi hocr h pages pages]
  · intro env pdf_path pages s h hs
    cases he : pdf_path.isEmpty with
    | true =>
      rw [extract_content_of_empty env he pages] at hs
      cases hs
    | false =>
      cases hu : env.is_url with
      | true =>
        have hlp : local_path env pdf_path = env.temp_path := by simp [local_path, hu]
        rw [hlp] at h
        cases hd : env.download_err with
        | some e =>
          rw [extract_content_url_fail env he hu hd pages] at hs
          cases hs
        | none =>
          rw [extract_content_url_ok env he hu hd pages] at hs
          exact process_image_ok env h (wrapErr_ok hs)
      | false =>
        have hlp : local_path env pdf_path = pdf_path := by simp [local_path, hu]
        rw [hlp] at h
        cases hl : env.local_exists with
        | false =>
          rw [extract_content_local_missing env he hu hl pages] at hs
          cases hs
        | true =>
          rw [extract_content_local_ok env he hu hl pages] at hs
          exact process_image_ok env h (wrapErr_ok hs)

theorem image_classification_and_output_witness :
    is_image_file "dir/photo.TIFF" = true
    ∧ ∃ t, "Image content:\ntext" = "Image content:\n" ++ t := by
  constructor
  · rw [image_classification_and_output.1 "dir/photo.TIFF"]
    decide
  · exact image_classification_and_output.2.2 sampleEnv "photo.jpg" none
      "Image content:\ntext" (by decide) (by decide)

/-- C8: OCR over scanned-PDF pages is always configured with the combined
Chinese-simplified and English dictionary, OCR over a standalone image
always with English only, both at strategy level and over a whole
`extract_content` invocation. -/
theorem ocr_language_configuration :
    (∀ (env : Env) (sel : List Nat) (c : OcrCall),
        c ∈ (extract_text_from_scanned env sel).2 → c.lang = "chi_sim+eng")
    ∧ (∀ (env : Env) (c : OcrCall),
        c ∈ (extract_text_from_image env).2 → c.lang = "eng")
    ∧ ∀ (env : Env) (pdf_path : String) (pages : Option String) (c : OcrCall),
        c ∈ (extract_content env pdf_path pages).ocrCalls →
          (if is_image_file (local_path env pdf_path) then c.lang = "eng"
           else c.lang = "chi_sim+eng") := by
  refine ⟨fun env sel c hc => extract_text_from_scanned_lang env sel c hc,
    fun env c hc => extract_text_from_image_lang env c hc, ?_⟩
  intro env pdf_path pages c hc
  cases he : pdf_path.isEmpty with
  | true => rw [extract_content_of_empty env he pages] at hc; cases hc
  | false =>
    cases hu : env.is_url with
    | true =>
      have hlp : local_path env pdf_path = env.temp_path := by simp [local_path, hu]
      rw [hlp]
      cases hd : env.download_err with
      | some e => rw [extract_content_url_fail env he hu hd pages] at hc; cases hc
      | none =>
        rw [extract_content_url_ok env he hu hd pages] at hc
        exact process_calls_lang env env.temp_path pages c hc
    | false =>
      have hlp : local_path env pdf_path = pdf_path := by simp [local_path, hu]
      rw [hlp]
      cases hl : env.local_exists with
      | false => rw [extract_content_local_missing env he hu hl pages] at hc; cases hc
      | true =>
        rw [extract_content_local_ok env he hu hl pages] at hc
        exact process_calls_lang env pdf_path pages c hc

theorem ocr_language_configuration_witness :
    (⟨0, "chi_sim+eng"⟩ : OcrCall).lang = "chi_sim+eng"
    ∧ (⟨0, "eng"⟩ : OcrCall).lang = "eng" :=
  ⟨ocr_language_configuration.1 sampleEnv [0] ⟨0, "chi_sim+eng"⟩ (by decide),
   ocr_language_configuration.2.1 sampleEnv ⟨0, "eng"⟩ (by decide)⟩

/-- C9: an invocation whose source is a local path deletes no file at all,
and in every invocation the cleanup only ever deletes a file the pipeline
itself created. -/
theorem local_source_never_deleted (env : Env) (pdf_path : String) (pages : Option String) :
    (env.is_url = false → deletedPaths (extract_content env pdf_path pages).fs = [])
    ∧ ∀ p, FsEvent.unlink p ∈ (extract_content env pdf_path pages).fs →
        FsEvent.create p ∈ (extract_content env pdf_path pages).fs := by
  cases he : pdf_path.isEmpty with
  | true =>
    rw [extract_content_of_empty env he pages]
    exact ⟨fun _ => rfl, fun p hp => absurd hp (by simp)⟩
  | false =>
    cases hu : env.is_url with
    | false =>
      cases hl : env.local_exists with
      | false =>
        rw [extract_content_local_missing env he hu hl pages]
        exact ⟨fun _ => rfl, fun p hp => absurd hp (by simp)⟩
      | true =>
        rw [extract_content_local_ok env he hu hl pages]
        exact ⟨fun _ => rfl, fun p hp => absurd hp (by simp)⟩
    | true =>
      refine ⟨fun h => Bool.noConfusion h, ?_⟩
      intro p hp
      cases hd : env.download_err with
      | some e =>
        rw [extract_content_url_fail env he hu hd pages] at hp ⊢
        exact absurd (List.mem_singleton.mp hp) (by simp)
      | none =>
        rw [extract_content_url_ok env he hu hd pages] at hp ⊢
        dsimp only at hp ⊢
        cases hk : env.unlink_ok with
        | false =>
          rw [if_neg (by rw [hk]; exact Bool.false_ne_true)] at hp
          exact absurd (List.mem_singleton.mp hp) (by simp)
        | true =>
          rw [if_pos hk] at hp
          rw [if_pos rfl]
          rcases List.mem_cons.mp hp with h1 | h2
          · exact absurd h1 (by simp)
          · have hpp := List.mem_singleton.mp h2
            injection hpp with hq
            subst hq
            exact List.mem_cons_self _ _

theorem local_source_never_deleted_witness :
    deletedPaths (extract_content sampleEnv "a.pdf" none).fs = [] :=
  (local_source_never_deleted sampleEnv "a.pdf" none).1 rfl

/-- C10: when the resolved resource is classified as an image file, the
outcome of `extract_content` is independent of the pages argument — the
image branch returns before page parsing is ever reached. -/
theorem image_result_independent_of_pages (env : Env) (pdf_path : String)
    (h : is_image_file (local_path env pdf_path) = true) (p1 p2 : Option String) :
    extract_content env pdf_path p1 = extract_content env pdf_path p2 := by
  cases he : pdf_path.isEmpty with
  | true => rw [extract_content_of_empty env he p1, extract_content_of_empty env he p2]
  | false =>
    cases hu : env.is_url with
    | true =>
      have hlp : local_path env pdf_path = env.temp_path := by simp [local_path, hu]
      rw [hlp] at h
      cases hd : env.download_err with
      | some e =>
        rw [extract_content_url_fail env he hu hd p1,
          extract_content_url_fail env he hu hd p2]
      | none =>
        rw [extract_content_url_ok env he hu hd p1,
          extract_content_url_ok env he hu hd p2,
          process_image_pages_indep env h p1 p2]
    | false =>
      have hlp : local_path env pdf_path = pdf_path := by simp [local_path, hu]
      rw [hlp] at h
      cases hl : env.local_exists with
      | false =>
        rw [extract_content_local_missing env he hu hl p1,
          extract_content_local_missing env he hu hl p2]
      | true =>
        rw [extract_content_local_ok env he hu hl p1,
          extract_content_local_ok env he hu hl p2,
          process_image_pages_indep env h p1 p2]

theorem image_result_independent_of_pages_witness :
    extract_content sampleEnv "photo.jpg" (some "2,3")
      = extract_content sampleEnv "photo.jpg" none :=
  image_result_independent_of_pages sampleEnv "photo.jpg" (by decide) (some "2,3") none

end PdfExtraction
